import Mathlib

/-!
Verification development for the question-extraction engine of
`app/services/document_parser.py` (class `DocumentParser`).

The engine is `_extract_questions(full_text, paragraphs)`: five independent
regex passes (single-choice, multiple-choice, fill-blank-with-answer, judge,
essay) plus a stateful fill-blank paragraph scanner, concatenated in a fixed
order.

The Python regexes are embedded as abstract syntax trees (`RE`) transcribed
token-by-token from the pattern strings, and executed by a backtracking
matcher (`reFirst`) that implements Python `re` semantics for the construct
subset those patterns use: concatenation, prioritized alternation, greedy and
lazy quantifiers over single-character classes, capture groups, positive
lookahead, and `$` under `re.MULTILINE`.  All patterns in the source are
compiled with `re.DOTALL | re.MULTILINE`, so `.` matches every character and
`$` matches at end of input or before a newline.  `re.finditer` is embedded
as `findAll`: leftmost scanning, first (highest-priority) match per position,
resuming after each match.
-/

/-- Capture list: `(group index, start position, end position)` over the
subject text, recorded along the successful backtracking path. -/
abbrev Caps := List (Nat × Nat × Nat)

/-- Regex AST for the pattern subset used by `document_parser.py`.
Quantifiers apply to single-character classes only, which is exactly the shape
of every quantified atom in the source patterns (`\d+`, `\s*`, `\s+`, `.+?`,
`.*?`, `[\.、]?`, `[ABCD]+`). -/
inductive RE where
  /-- one character of a class, e.g. `[：:]`, `[ABCD]`, `.` under DOTALL -/
  | cls (p : Char → Bool)
  /-- a literal character sequence, e.g. `答案`, `___`, `A` -/
  | lit (s : List Char)
  /-- greedy star of a class, e.g. `\s*` -/
  | starG (p : Char → Bool)
  /-- lazy star of a class, e.g. `.*?` -/
  | starL (p : Char → Bool)
  /-- greedy plus of a class, e.g. `\d+`, `\s+`, `[ABCD]+` -/
  | plusG (p : Char → Bool)
  /-- lazy plus of a class, e.g. `.+?` -/
  | plusL (p : Char → Bool)
  /-- greedy option of a class, e.g. `[\.、]?` -/
  | optG (p : Char → Bool)
  /-- concatenation -/
  | cat (a b : RE)
  /-- prioritized alternation (left branch preferred, as in Python) -/
  | alt (a b : RE)
  /-- numbered capture group `(...)` -/
  | grp (n : Nat) (a : RE)
  /-- positive lookahead `(?=...)` -/
  | look (a : RE)
  /-- The anchor `$` under `re.MULTILINE`: end of input or just before `\n` -/
  | eolM

/-- Length of the maximal run of characters satisfying `p` starting at
position `i` of `t`: the candidate space of a quantified class. -/
def runLen (p : Char → Bool) (t : List Char) (i : Nat) : Nat :=
  ((t.drop i).takeWhile p).length

/-- Does the literal `s` occur at position `i` of `t`? -/
def litAt (s t : List Char) (i : Nat) : Bool :=
  s.isPrefixOf (t.drop i)

/-- First success of `k` over a list of candidate positions, in order.
This realizes the backtracking priority order of Python `re`. -/
def firstSome (k : Nat → Option (Nat × Caps)) : List Nat → Option (Nat × Caps)
  | [] => none
  | j :: js =>
    match k j with
    | some r => some r
    | none => firstSome k js

/-- Candidate end positions of a greedy class star at `i` with run `m`:
`i+m, i+m-1, …, i`. -/
def candsStarG (i m : Nat) : List Nat :=
  (List.range (m + 1)).map (fun d => i + m - d)

/-- Candidate end positions of a lazy class star at `i` with run `m`:
`i, i+1, …, i+m`. -/
def candsStarL (i m : Nat) : List Nat :=
  (List.range (m + 1)).map (fun d => i + d)

/-- Candidate end positions of a greedy class plus at `i` with run `m`:
`i+m, i+m-1, …, i+1` (empty when `m = 0`). -/
def candsPlusG (i m : Nat) : List Nat :=
  (List.range m).map (fun d => i + m - d)

/-- Candidate end positions of a lazy class plus at `i` with run `m`:
`i+1, i+2, …, i+m` (empty when `m = 0`). -/
def candsPlusL (i m : Nat) : List Nat :=
  (List.range m).map (fun d => i + 1 + d)

/-- Backtracking matcher in continuation-passing style.  `reFirst t r i g k`
explores the ways `r` can match `t` starting at position `i` in Python's
priority order (rightmost quantifier varies fastest, left alternative first,
greedy longest-first, lazy shortest-first) and returns the first success of
the continuation `k`, which receives the end position and the captures
accumulated so far.  This is exactly the strategy of Python's `re`
backtracking engine on this construct subset. -/
def reFirst (t : List Char) : RE → Nat → Caps → (Nat → Caps → Option (Nat × Caps)) → Option (Nat × Caps)
  | .cls p, i, g, k =>
    match t.get? i with
    | some c => if p c then k (i + 1) g else none
    | none => none
  | .lit s, i, g, k => if litAt s t i then k (i + s.length) g else none
  | .starG p, i, g, k => firstSome (fun j => k j g) (candsStarG i (runLen p t i))
  | .starL p, i, g, k => firstSome (fun j => k j g) (candsStarL i (runLen p t i))
  | .plusG p, i, g, k => firstSome (fun j => k j g) (candsPlusG i (runLen p t i))
  | .plusL p, i, g, k => firstSome (fun j => k j g) (candsPlusL i (runLen p t i))
  | .optG p, i, g, k =>
    match t.get? i with
    | some c =>
      if p c then
        match k (i + 1) g with
        | some r => some r
        | none => k i g
      else k i g
    | none => k i g
  | .cat a b, i, g, k => reFirst t a i g (fun j g2 => reFirst t b j g2 k)
  | .alt a b, i, g, k =>
    match reFirst t a i g k with
    | some r => some r
    | none => reFirst t b i g k
  | .grp n a, i, g, k => reFirst t a i g (fun j g2 => k j (g2 ++ [(n, i, j)]))
  | .look a, i, g, k =>
    match reFirst t a i [] (fun j g2 => some (j, g2)) with
    | some _ => k i g
    | none => none
  | .eolM, i, g, k =>
    if i = t.length || t.get? i == some '\n' then k i g else none

/-- Try to match `pat` at position `i` of `t` (Python `pattern.match` at a
scan position): end position and captures of the highest-priority match. -/
def matchAt (t : List Char) (pat : RE) (i : Nat) : Option (Nat × Caps) :=
  reFirst t pat i [] (fun j g => some (j, g))

/-- One `re.finditer` scan step, fuelled for structural recursion: try each
position left to right, emit the match found there, resume at its end
(advancing at least one position).  `findAll` supplies fuel `t.length + 1`,
which is enough because every step advances the position by at least one and
scanning stops past the end of the text. -/
def findFromFuel (t : List Char) (pat : RE) : Nat → Nat → List (Nat × Nat × Caps)
  | 0, _ => []
  | fuel + 1, i =>
    if i ≤ t.length then
      match matchAt t pat i with
      | some (j, g) => (i, j, g) :: findFromFuel t pat fuel (if j ≤ i then i + 1 else j)
      | none => findFromFuel t pat fuel (i + 1)
    else []

/-- All matches of `pat` in `t`, as `(start, end, captures)`, in the order
`re.finditer` yields them. -/
def findAll (pat : RE) (t : List Char) : List (Nat × Nat × Caps) :=
  findFromFuel t pat (t.length + 1) 0

/-- Text captured by group `n`: `match.group(n)` (empty if absent, which does
not occur on the successful paths of the embedded patterns). -/
def capGroup (t : List Char) (caps : Caps) (n : Nat) : List Char :=
  match caps.find? (fun c => c.1 == n) with
  | some (_, s, e) => (t.drop s).take (e - s)
  | none => []

/-- Python `\s` on the inputs under study: ASCII whitespace.  (Python's `\s`
additionally accepts rare Unicode space characters; no claim here depends on
those.) -/
def isSpaceB (c : Char) : Bool :=
  c == ' ' || c == '\t' || c == '\n' || c == '\r' || c == '\x0b' || c == '\x0c'

/-- Python `\d` on the inputs under study: ASCII digits. -/
def isDigitB (c : Char) : Bool :=
  c.isDigit

/-- The class `[\.、]` (separator after a question number / option letter). -/
def isDotSep (c : Char) : Bool :=
  c == '.' || c == '、'

/-- The class `[\.、\s]` used by the single-choice option markers. -/
def isDotSepSp (c : Char) : Bool :=
  isDotSep c || isSpaceB c

/-- The class `[ABCD]`. -/
def isABCD (c : Char) : Bool :=
  c == 'A' || c == 'B' || c == 'C' || c == 'D'

/-- The class `[：:]` (full- or half-width colon after the answer keyword). -/
def isColon (c : Char) : Bool :=
  c == '：' || c == ':'

/-- The dot `.` under `re.DOTALL`: any character. -/
def anyChar (_ : Char) : Bool :=
  true

/-- The class `[对错正确错误√×]` of the judge grammar: one character drawn
from the set {对, 错, 正, 确, 误, √, ×} (duplicate class members collapse). -/
def isJudgeTok (c : Char) : Bool :=
  c == '对' || c == '错' || c == '正' || c == '确' || c == '误' || c == '√' || c == '×'

/-- The class `[（(]` (full- or half-width opening parenthesis). -/
def isOpenPar (c : Char) : Bool :=
  c == '（' || c == '('

/-- The class `[）)]` (full- or half-width closing parenthesis). -/
def isClosePar (c : Char) : Bool :=
  c == '）' || c == ')'

/-- The shared leading-number-plus-content shape `\d+[\.、]?\s*.+?` of
group 1 in the single/multiple-choice, judge and essay patterns. -/
def numContent : RE :=
  .cat (.plusG isDigitB) (.cat (.optG isDotSep) (.cat (.starG isSpaceB) (.plusL anyChar)))

/-- The piece `X[\.、\s]\s*.+?` for an option letter `X` — one captured option of the
primary single-choice pattern. -/
def optBodySp (letter : Char) : RE :=
  .cat (.lit [letter]) (.cat (.cls isDotSepSp) (.cat (.starG isSpaceB) (.plusL anyChar)))

/-- The piece `X[\.、]\s*.+?` for an option letter `X` — one captured option of the
multiple-choice pattern. -/
def optBodyDot (letter : Char) : RE :=
  .cat (.lit [letter]) (.cat (.cls isDotSep) (.cat (.starG isSpaceB) (.plusL anyChar)))

/-- The answer keyword piece `答案[：:]\s*`. -/
def answerKey : RE :=
  .cat (.lit "答案".data) (.cat (.cls isColon) (.starG isSpaceB))

/-- Primary single-choice pattern
`(\d+[\.、]?\s*.+?)\s+(A[\.、\s]\s*.+?)\s+(B[\.、\s]\s*.+?)\s+(C[\.、\s]\s*.+?)\s+(D[\.、\s]\s*.+?)\s+答案[：:]\s*([ABCD])`. -/
def singlePat : RE :=
  .cat (.grp 1 numContent)
    (.cat (.plusG isSpaceB)
      (.cat (.grp 2 (optBodySp 'A'))
        (.cat (.plusG isSpaceB)
          (.cat (.grp 3 (optBodySp 'B'))
            (.cat (.plusG isSpaceB)
              (.cat (.grp 4 (optBodySp 'C'))
                (.cat (.plusG isSpaceB)
                  (.cat (.grp 5 (optBodySp 'D'))
                    (.cat (.plusG isSpaceB)
                      (.cat answerKey (.grp 6 (.cls isABCD))))))))))))

/-- Fallback single-choice pattern (tried only when the primary one has no
match): `(\d+[\.、]?\s*.+?)\s+A[\.、\s]\s*(.+?)\s+B[\.、\s]\s*(.+?)\s+C[\.、\s]\s*(.+?)\s+D[\.、\s]\s*(.+?)\s+答案[：:]\s*([ABCD])` —
the option letters sit outside the capture groups. -/
def altSinglePat : RE :=
  .cat (.grp 1 numContent)
    (.cat (.plusG isSpaceB)
      (.cat (.lit ['A']) (.cat (.cls isDotSepSp) (.cat (.starG isSpaceB)
        (.cat (.grp 2 (.plusL anyChar))
          (.cat (.plusG isSpaceB)
            (.cat (.lit ['B']) (.cat (.cls isDotSepSp) (.cat (.starG isSpaceB)
              (.cat (.grp 3 (.plusL anyChar))
                (.cat (.plusG isSpaceB)
                  (.cat (.lit ['C']) (.cat (.cls isDotSepSp) (.cat (.starG isSpaceB)
                    (.cat (.grp 4 (.plusL anyChar))
                      (.cat (.plusG isSpaceB)
                        (.cat (.lit ['D']) (.cat (.cls isDotSepSp) (.cat (.starG isSpaceB)
                          (.cat (.grp 5 (.plusL anyChar))
                            (.cat (.plusG isSpaceB)
                              (.cat answerKey (.grp 6 (.cls isABCD))))))))))))))))))))))))

/-- Multiple-choice pattern
`(\d+[\.、]?\s*.+?)\s+(A[\.、]\s*.+?)\s+(B[\.、]\s*.+?)\s+(C[\.、]\s*.+?)\s+(D[\.、]\s*.+?)\s+答案[：:]\s*([ABCD]+)`. -/
def multPat : RE :=
  .cat (.grp 1 numContent)
    (.cat (.plusG isSpaceB)
      (.cat (.grp 2 (optBodyDot 'A'))
        (.cat (.plusG isSpaceB)
          (.cat (.grp 3 (optBodyDot 'B'))
            (.cat (.plusG isSpaceB)
              (.cat (.grp 4 (optBodyDot 'C'))
                (.cat (.plusG isSpaceB)
                  (.cat (.grp 5 (optBodyDot 'D'))
                    (.cat (.plusG isSpaceB)
                      (.cat answerKey (.grp 6 (.plusG isABCD))))))))))))

/-- The lookahead `(?=\d+[\.、]|$)` bounding a non-greedy trailing capture
(`$` is MULTILINE: end of input or before a newline). -/
def nextNumOrEnd : RE :=
  .look (.alt (.cat (.plusG isDigitB) (.cls isDotSep)) .eolM)

/-- First alternative of the fill-blank content group:
`\d+[\.、]?\s*.+?[（(].*?[）)]`. -/
def fillBrA : RE :=
  .cat (.plusG isDigitB) (.cat (.optG isDotSep) (.cat (.starG isSpaceB)
    (.cat (.plusL anyChar) (.cat (.cls isOpenPar) (.cat (.starL anyChar) (.cls isClosePar))))))

/-- Second alternative of the fill-blank content group: `.+?___.+?`. -/
def fillBrB : RE :=
  .cat (.plusL anyChar) (.cat (.lit "___".data) (.plusL anyChar))

/-- Tail of the fill-blank pattern: `\s+答案[：:]\s*(.+?)(?=\d+[\.、]|$)`. -/
def fillRest : RE :=
  .cat (.plusG isSpaceB)
    (.cat answerKey (.cat (.grp 2 (.plusL anyChar)) nextNumOrEnd))

/-- Fill-blank (explicit answer) pattern
`(\d+[\.、]?\s*.+?[（(].*?[）)]|.+?___.+?)\s+答案[：:]\s*(.+?)(?=\d+[\.、]|$)`. -/
def fillPat : RE :=
  .cat (.grp 1 (.alt fillBrA fillBrB)) fillRest

/-- Judge pattern `(\d+[\.、]?\s*.+?)\s+答案[：:]\s*([对错正确错误√×])`. -/
def judgePat : RE :=
  .cat (.grp 1 numContent)
    (.cat (.plusG isSpaceB) (.cat answerKey (.grp 2 (.cls isJudgeTok))))

/-- Essay pattern `(\d+[\.、]?\s*.+?)\s+解析[：:]\s*(.+?)(?=\d+[\.、]|$)`. -/
def essayPat : RE :=
  .cat (.grp 1 numContent)
    (.cat (.plusG isSpaceB)
      (.cat (.lit "解析".data) (.cat (.cls isColon) (.cat (.starG isSpaceB)
        (.cat (.grp 2 (.plusL anyChar)) nextNumOrEnd)))))

/-- Python `str.strip()`: drop whitespace from both ends. -/
def pyStrip (s : List Char) : List Char :=
  (((s.dropWhile isSpaceB).reverse.dropWhile isSpaceB)).reverse

/-- Cleanup `re.sub(r'^X[\.、]\s*', '', s)` for an option letter `X`: strip a leading
`X.`/`X、` marker and the following whitespace run, if present. -/
def cleanOpt (letter : Char) (s : List Char) : List Char :=
  match s with
  | a :: b :: rest =>
    if a == letter && isDotSep b then rest.dropWhile isSpaceB else s
  | _ => s

/-- The test `re.match(r'^\d+[\.、]', para)` as a Bool: a maximal nonempty leading
digit run followed by `.` or `、`.  (Backtracking into a shorter digit run
cannot help, since a digit is never `.` or `、`.) -/
def startsNum (s : List Char) : Bool :=
  let ds := s.takeWhile isDigitB
  !ds.isEmpty &&
    (match s.drop ds.length with
     | c :: _ => isDotSep c
     | [] => false)

/-- Python substring test `needle in hay`. -/
def containsSub (needle hay : List Char) : Bool :=
  (List.range (hay.length + 1)).any (fun i => needle.isPrefixOf (hay.drop i))

/-- Python `'\n'.join(lines)`. -/
def joinNL : List (List Char) → List Char
  | [] => []
  | [x] => x
  | x :: xs => x ++ '\n' :: joinNL xs

/-- The blank-marker test of the paragraph scanner:
`'（' in c or '(' in c or '）' in c or ')' in c or '___' in c`. -/
def hasBlank (c : List Char) : Bool :=
  c.contains '（' || c.contains '(' || c.contains '）' || c.contains ')' ||
    containsSub "___".data c

/-- The output record, mirroring `QuestionResult` of `app/models.py`
(`images` and `tags` are populated by collaborators, never by the engine). -/
structure QuestionResult where
  type : String
  content : String
  options : Option (List String) := none
  answer : String
  explanation : Option String := none
  images : Option (List String) := none
  difficulty : String := "medium"
  grade : Nat := 1
  subject : String := ""
  tags : Option (List String) := none
deriving DecidableEq, Repr

/-- Build one choice record from a match `m` of a choice pattern over `t`:
strip each group, drop the leading `X.`/`X、` marker from each option body,
and fill the constant default fields, exactly as the source loops do. -/
def mkChoice (ty : String) (t : List Char) (m : Nat × Nat × Caps) : QuestionResult :=
  let caps := m.2.2
  { type := ty
    content := ⟨pyStrip (capGroup t caps 1)⟩
    options := some
      [⟨cleanOpt 'A' (pyStrip (capGroup t caps 2))⟩,
       ⟨cleanOpt 'B' (pyStrip (capGroup t caps 3))⟩,
       ⟨cleanOpt 'C' (pyStrip (capGroup t caps 4))⟩,
       ⟨cleanOpt 'D' (pyStrip (capGroup t caps 5))⟩]
    answer := ⟨pyStrip (capGroup t caps 6)⟩ }

/-- Embedding of `DocumentParser._extract_single_choice`: run the primary pattern; if it
has no match at all, fall back to the alternative pattern; one record per
match. -/
def extract_single_choice (text : List Char) (_paragraphs : List (List Char)) : List QuestionResult :=
  (if (findAll singlePat text).isEmpty then findAll altSinglePat text
   else findAll singlePat text).map (mkChoice "single-choice" text)

/-- Embedding of `DocumentParser._extract_multiple_choice`: one record per match, except
that a match whose stripped answer has length ≤ 1 is discarded (it belongs to
single-choice). -/
def extract_multiple_choice (text : List Char) (_paragraphs : List (List Char)) : List QuestionResult :=
  (findAll multPat text).filterMap fun m =>
    if (pyStrip (capGroup text m.2.2 6)).length ≤ 1 then none
    else some (mkChoice "multiple-choice" text m)

/-- A fill-blank record (no options, constant defaults). -/
def mkFill (content answer : List Char) : QuestionResult :=
  { type := "fill-blank", content := ⟨content⟩, answer := ⟨answer⟩ }

/-- The records of fill-blank pattern 1 (explicit answer), in match order. -/
def explicitFill (text : List Char) : List QuestionResult :=
  (findAll fillPat text).map fun m =>
    mkFill (pyStrip (capGroup text m.2.2 1)) (pyStrip (capGroup text m.2.2 2))

/-- The containment check of the paragraph scanner:
`any(q.content == content or content in q.content for q in questions)`. -/
def alreadyMatched (qs : List QuestionResult) (content : List Char) : Bool :=
  qs.any fun q => q.content == ⟨content⟩ || containsSub content q.content.data

/-- Flush of the paragraph scanner: join the accumulated lines, and append a
no-answer fill-blank record unless the content lacks a blank marker or is
already covered by an earlier record. -/
def flushFill (qs : List QuestionResult) (cc : List (List Char)) : List QuestionResult :=
  if hasBlank (pyStrip (joinNL cc)) then
    if alreadyMatched qs (pyStrip (joinNL cc)) then qs
    else qs ++ [mkFill (pyStrip (joinNL cc)) []]
  else qs

/-- The paragraph-scanner loop of `_extract_fill_blank`, one paragraph at a
time.  State: the records list built so far (`qs`, seeded with the pattern-1
records), the open question (`cq`, Python's `current_question`), and the
accumulated lines (`cc`, Python's `current_content`).  Each paragraph is
re-stripped and skipped if empty; a leading-number paragraph flushes and
reopens; while a question is open, a paragraph that carries `答案` (or a
leading number, impossible in that branch) flushes and closes; otherwise the
paragraph is appended to the open question.  At the end of the stream an open
question is flushed once more. -/
def scanFold (qs : List QuestionResult) (cq : Option (List Char)) (cc : List (List Char)) : List (List Char) → List QuestionResult
  | [] => if cq.isSome && !cc.isEmpty then flushFill qs cc else qs
  | p :: rest =>
    if (pyStrip p).isEmpty then scanFold qs cq cc rest
    else if startsNum (pyStrip p) then
      scanFold (if cq.isSome && !cc.isEmpty then flushFill qs cc else qs)
        (some (pyStrip p)) [pyStrip p] rest
    else if cq.isSome then
      if startsNum (pyStrip p) || containsSub "答案".data (pyStrip p) then
        if startsNum (pyStrip p) then
          scanFold (if !cc.isEmpty then flushFill qs cc else qs) (some (pyStrip p)) [pyStrip p] rest
        else scanFold (if !cc.isEmpty then flushFill qs cc else qs) none [] rest
      else scanFold qs cq (cc ++ [pyStrip p]) rest
    else scanFold qs cq cc rest

/-- Embedding of `DocumentParser._extract_fill_blank`: pattern-1 records first, then the
paragraph scanner appends its no-answer records. -/
def extract_fill_blank (text : List Char) (paragraphs : List (List Char)) : List QuestionResult :=
  scanFold (explicitFill text) none [] paragraphs

/-- Embedding of `DocumentParser._extract_judge`: one record per match; the captured
answer token is normalized (对/正确/√ ↦ "true", 错/错误/× ↦ "false"), and a
match whose token falls in neither list is silently dropped. -/
def extract_judge (text : List Char) (_paragraphs : List (List Char)) : List QuestionResult :=
  (findAll judgePat text).filterMap fun m =>
    if pyStrip (capGroup text m.2.2 2) == "对".data ||
        pyStrip (capGroup text m.2.2 2) == "正确".data ||
        pyStrip (capGroup text m.2.2 2) == "√".data then
      some { type := "judge", content := ⟨pyStrip (capGroup text m.2.2 1)⟩, answer := "true" }
    else if pyStrip (capGroup text m.2.2 2) == "错".data ||
        pyStrip (capGroup text m.2.2 2) == "错误".data ||
        pyStrip (capGroup text m.2.2 2) == "×".data then
      some { type := "judge", content := ⟨pyStrip (capGroup text m.2.2 1)⟩, answer := "false" }
    else none

/-- Embedding of `DocumentParser._extract_essay`: one record per match; the answer is
always empty and the captured text after `解析` becomes the explanation. -/
def extract_essay (text : List Char) (_paragraphs : List (List Char)) : List QuestionResult :=
  (findAll essayPat text).map fun m =>
    { type := "essay"
      content := ⟨pyStrip (capGroup text m.2.2 1)⟩
      answer := ""
      explanation := some ⟨pyStrip (capGroup text m.2.2 2)⟩ }

/-- Embedding of `DocumentParser._extract_questions`: the five passes run independently
over the same inputs and their outputs are concatenated in this fixed
order. -/
def extract_questions (full_text : List Char) (paragraphs : List (List Char)) : List QuestionResult :=
  extract_single_choice full_text paragraphs ++
    extract_multiple_choice full_text paragraphs ++
      extract_fill_blank full_text paragraphs ++
        extract_judge full_text paragraphs ++
          extract_essay full_text paragraphs

/-! ### Generic lemmas about the matcher -/

theorem firstSome_eq_none (k : Nat → Option (Nat × Caps)) (l : List Nat)
    (h : ∀ j, k j = none) : firstSome k l = none := by
  induction l with
  | nil => rfl
  | cons j js ih => simp [firstSome, h j, ih]

theorem runLen_eq_zero (p : Char → Bool) (t : List Char) (i : Nat)
    (h : ∀ c ∈ t, p c = false) : runLen p t i = 0 := by
  unfold runLen
  cases hd : t.drop i with
  | nil => simp
  | cons c rest =>
    have hc : c ∈ t := List.drop_subset _ t (hd ▸ List.mem_cons_self c rest)
    simp [List.takeWhile_cons, h c hc]

theorem reFirst_plusG_none (t : List Char) (p : Char → Bool) (X : RE) (i : Nat) (g : Caps)
    (k : Nat → Caps → Option (Nat × Caps)) (h0 : runLen p t i = 0) :
    reFirst t (.cat (.plusG p) X) i g k = none := by
  simp [reFirst, h0, candsPlusG, firstSome]

theorem reFirst_numContent_none (t : List Char) (i : Nat) (g : Caps)
    (k : Nat → Caps → Option (Nat × Caps)) (h : ∀ c ∈ t, isDigitB c = false) :
    reFirst t numContent i g k = none :=
  reFirst_plusG_none t isDigitB _ i g k (runLen_eq_zero isDigitB t i h)

theorem reFirst_grpNum_none (t : List Char) (n : Nat) (Y : RE) (i : Nat) (g : Caps)
    (k : Nat → Caps → Option (Nat × Caps)) (h : ∀ c ∈ t, isDigitB c = false) :
    reFirst t (.cat (.grp n numContent) Y) i g k = none := by
  have h1 : reFirst t (.cat (.grp n numContent) Y) i g k =
      reFirst t numContent i g
        (fun j g2 => reFirst t Y j (g2 ++ [(n, i, j)]) k) := rfl
  rw [h1, reFirst_numContent_none t i g _ h]

theorem litAt_underscore_false (t : List Char) (h : ∀ c ∈ t, isSpaceB c = true) (j : Nat) :
    litAt "___".data t j = false := by
  unfold litAt
  cases hd : t.drop j with
  | nil => rfl
  | cons c rest =>
    have hc : c ∈ t := List.drop_subset _ t (hd ▸ List.mem_cons_self c rest)
    have hne : ('_' == c) = false := by
      have hs := h c hc
      simp only [isSpaceB, Bool.or_eq_true, beq_iff_eq] at hs
      rcases hs with ((((rfl | rfl) | rfl) | rfl) | rfl) | rfl <;> decide
    simp [List.isPrefixOf, hne]

theorem reFirst_litUnderscore_none (t : List Char) (hs : ∀ c ∈ t, isSpaceB c = true)
    (X : RE) (j : Nat) (g : Caps) (k : Nat → Caps → Option (Nat × Caps)) :
    reFirst t (.cat (.lit "___".data) X) j g k = none := by
  have h1 : reFirst t (.cat (.lit "___".data) X) j g k =
      if litAt "___".data t j then reFirst t X (j + "___".data.length) g k
      else none := rfl
  simp [h1, litAt_underscore_false t hs j]

theorem reFirst_fillBrB_none (t : List Char) (hs : ∀ c ∈ t, isSpaceB c = true)
    (i : Nat) (g : Caps) (k : Nat → Caps → Option (Nat × Caps)) :
    reFirst t fillBrB i g k = none := by
  have h1 : reFirst t fillBrB i g k =
      firstSome (fun j => reFirst t (.cat (.lit "___".data) (.plusL anyChar)) j g k)
        (candsPlusL i (runLen anyChar t i)) := rfl
  rw [h1]
  exact firstSome_eq_none _ _ (fun j => reFirst_litUnderscore_none t hs _ j g k)

theorem reFirst_fillPat_none (t : List Char) (hs : ∀ c ∈ t, isSpaceB c = true)
    (hd : ∀ c ∈ t, isDigitB c = false) (i : Nat) (g : Caps)
    (k : Nat → Caps → Option (Nat × Caps)) :
    reFirst t fillPat i g k = none := by
  have h1 : reFirst t fillPat i g k =
      (match reFirst t fillBrA i g
          (fun j g2 => reFirst t fillRest j (g2 ++ [(1, i, j)]) k) with
       | some r => some r
       | none =>
         reFirst t fillBrB i g
           (fun j g2 => reFirst t fillRest j (g2 ++ [(1, i, j)]) k)) := rfl
  have hA : reFirst t fillBrA i g
      (fun j g2 => reFirst t fillRest j (g2 ++ [(1, i, j)]) k) = none :=
    reFirst_plusG_none t isDigitB _ i g _ (runLen_eq_zero isDigitB t i hd)
  rw [h1, hA]
  exact reFirst_fillBrB_none t hs i g _

theorem findFromFuel_eq_nil (t : List Char) (pat : RE)
    (h : ∀ i, matchAt t pat i = none) :
    ∀ fuel i, findFromFuel t pat fuel i = [] := by
  intro fuel
  induction fuel with
  | zero => intro i; rfl
  | succ f ih =>
    intro i
    simp only [findFromFuel, h i]
    split <;> simp [ih]

theorem findAll_eq_nil (pat : RE) (t : List Char)
    (h : ∀ i, matchAt t pat i = none) : findAll pat t = [] :=
  findFromFuel_eq_nil t pat h _ 0

theorem isSpaceB_not_digit (c : Char) (h : isSpaceB c = true) : isDigitB c = false := by
  simp only [isSpaceB, Bool.or_eq_true, beq_iff_eq] at h
  rcases h with ((((rfl | rfl) | rfl) | rfl) | rfl) | rfl <;> decide

theorem matchAt_grpNum_none (t : List Char) (n : Nat) (Y : RE)
    (h : ∀ c ∈ t, isDigitB c = false) (i : Nat) :
    matchAt t (.cat (.grp n numContent) Y) i = none :=
  reFirst_grpNum_none t n Y i [] _ h

/-! ### On whitespace-only text no pattern matches and every pass is empty -/

theorem findAll_singlePat_blank (t : List Char) (h : ∀ c ∈ t, isDigitB c = false) :
    findAll singlePat t = [] :=
  findAll_eq_nil _ _ (fun i => matchAt_grpNum_none t 1 _ h i)

theorem findAll_altSinglePat_blank (t : List Char) (h : ∀ c ∈ t, isDigitB c = false) :
    findAll altSinglePat t = [] :=
  findAll_eq_nil _ _ (fun i => matchAt_grpNum_none t 1 _ h i)

theorem findAll_multPat_blank (t : List Char) (h : ∀ c ∈ t, isDigitB c = false) :
    findAll multPat t = [] :=
  findAll_eq_nil _ _ (fun i => matchAt_grpNum_none t 1 _ h i)

theorem findAll_judgePat_blank (t : List Char) (h : ∀ c ∈ t, isDigitB c = false) :
    findAll judgePat t = [] :=
  findAll_eq_nil _ _ (fun i => matchAt_grpNum_none t 1 _ h i)

theorem findAll_essayPat_blank (t : List Char) (h : ∀ c ∈ t, isDigitB c = false) :
    findAll essayPat t = [] :=
  findAll_eq_nil _ _ (fun i => matchAt_grpNum_none t 1 _ h i)

theorem findAll_fillPat_blank (t : List Char) (hs : ∀ c ∈ t, isSpaceB c = true)
    (hd : ∀ c ∈ t, isDigitB c = false) : findAll fillPat t = [] :=
  findAll_eq_nil _ _ (fun i => reFirst_fillPat_none t hs hd i [] _)

theorem head_dropWhile_false (p : Char → Bool) :
    ∀ (l : List Char) (b : Char) (rest : List Char),
      List.dropWhile p l = b :: rest → p b = false := by
  intro l
  induction l with
  | nil => intro b rest h; simp at h
  | cons a l2 ih =>
    intro b rest h
    rw [List.dropWhile_cons] at h
    by_cases ha : p a
    · rw [if_pos ha] at h
      exact ih b rest h
    · rw [if_neg ha] at h
      cases h
      exact Bool.eq_false_iff.mpr ha

theorem pyStrip_eq_rdrop (s : List Char) :
    pyStrip s = List.rdropWhile isSpaceB (List.dropWhile isSpaceB s) := rfl

theorem dropWhile_strip_aux (s : List Char) :
    List.dropWhile isSpaceB (List.rdropWhile isSpaceB (List.dropWhile isSpaceB s)) =
      List.rdropWhile isSpaceB (List.dropWhile isSpaceB s) := by
  cases hB : List.rdropWhile isSpaceB (List.dropWhile isSpaceB s) with
  | nil => rfl
  | cons b B2 =>
    have hpre := List.rdropWhile_prefix isSpaceB (List.dropWhile isSpaceB s)
    rw [hB] at hpre
    obtain ⟨u, hu⟩ := hpre
    have hb : isSpaceB b = false := by
      apply head_dropWhile_false isSpaceB s b (B2 ++ u)
      rw [← hu]
      rfl
    simp [List.dropWhile_cons, hb]

/-- Python `str.strip()` is idempotent: the paragraph scanner re-strips already
stripped paragraphs without effect. -/
theorem pyStrip_idem (s : List Char) : pyStrip (pyStrip s) = pyStrip s := by
  rw [pyStrip_eq_rdrop (pyStrip s), pyStrip_eq_rdrop s, dropWhile_strip_aux,
    List.rdropWhile_idempotent]

/-! ### The scanner only appends records to the list it is given -/

theorem flushFill_append (qs : List QuestionResult) (cc : List (List Char)) :
    ∃ d, flushFill qs cc = qs ++ d := by
  unfold flushFill
  split
  · split
    · exact ⟨[], (List.append_nil qs).symm⟩
    · exact ⟨[mkFill (pyStrip (joinNL cc)) []], rfl⟩
  · exact ⟨[], (List.append_nil qs).symm⟩

theorem ite_flushFill_append (c : Prop) [Decidable c] (qs : List QuestionResult)
    (cc : List (List Char)) :
    ∃ d, (if c then flushFill qs cc else qs) = qs ++ d := by
  split
  · exact flushFill_append qs cc
  · exact ⟨[], (List.append_nil qs).symm⟩

theorem append_chain {qs qs' l : List QuestionResult} (h0 : ∃ d0, qs' = qs ++ d0)
    (h1 : ∃ d1, l = qs' ++ d1) : ∃ d, l = qs ++ d := by
  obtain ⟨d0, rfl⟩ := h0
  obtain ⟨d1, rfl⟩ := h1
  exact ⟨d0 ++ d1, List.append_assoc qs d0 d1⟩

theorem scanFold_append :
    ∀ (ps : List (List Char)) (qs : List QuestionResult) (cq : Option (List Char))
      (cc : List (List Char)), ∃ d, scanFold qs cq cc ps = qs ++ d := by
  intro ps
  induction ps with
  | nil =>
    intro qs cq cc
    simp only [scanFold]
    exact ite_flushFill_append _ qs cc
  | cons p rest ih =>
    intro qs cq cc
    simp only [scanFold]
    split_ifs <;>
      first
        | exact ih _ _ _
        | exact append_chain (flushFill_append qs cc) (ih _ _ _)

/-! ### The scanner tolerates untrimmed and empty paragraphs -/

/-- The §6 input contract, enforced by the engine itself: strip every
paragraph and drop the empty ones. -/
def cleanParas (ps : List (List Char)) : List (List Char) :=
  ps.filterMap fun p => if (pyStrip p).isEmpty then none else some (pyStrip p)

theorem scanFold_cleanParas :
    ∀ (ps : List (List Char)) (qs : List QuestionResult) (cq : Option (List Char))
      (cc : List (List Char)), scanFold qs cq cc (cleanParas ps) = scanFold qs cq cc ps := by
  intro ps
  induction ps with
  | nil => intro qs cq cc; rfl
  | cons p rest ih =>
    intro qs cq cc
    by_cases he : (pyStrip p).isEmpty
    · have he' : pyStrip p = [] := by simpa using he
      have hc : cleanParas (p :: rest) = cleanParas rest := by
        simp [cleanParas, List.filterMap_cons, he']
      rw [hc, ih]
      conv_rhs => simp only [scanFold]
      simp [he]
    · have he' : ¬ pyStrip p = [] := by simpa using he
      have hc : cleanParas (p :: rest) = pyStrip p :: cleanParas rest := by
        simp [cleanParas, List.filterMap_cons, he']
      rw [hc]
      simp only [scanFold, pyStrip_idem]
      split_ifs <;> exact ih _ _ _

/-! ### Shape of the records each pass emits -/

theorem mem_single_choice_shape (t : List Char) (ps : List (List Char)) (q : QuestionResult)
    (hq : q ∈ extract_single_choice t ps) :
    q.type = "single-choice" ∧ ∃ os, q.options = some os ∧ os.length = 4 := by
  obtain ⟨m, _, rfl⟩ := List.mem_map.mp hq
  exact ⟨rfl, ⟨_, rfl, rfl⟩⟩

theorem mem_multiple_choice_shape (t : List Char) (ps : List (List Char)) (q : QuestionResult)
    (hq : q ∈ extract_multiple_choice t ps) :
    q.type = "multiple-choice" ∧ ∃ os, q.options = some os ∧ os.length = 4 := by
  obtain ⟨m, _, hm⟩ := List.mem_filterMap.mp hq
  split at hm
  · simp at hm
  · cases hm
    exact ⟨rfl, ⟨_, rfl, rfl⟩⟩

theorem mem_judge_shape (t : List Char) (ps : List (List Char)) (q : QuestionResult)
    (hq : q ∈ extract_judge t ps) :
    q.type = "judge" ∧ (q.answer = "true" ∨ q.answer = "false") := by
  obtain ⟨m, _, hm⟩ := List.mem_filterMap.mp hq
  split at hm
  · cases hm
    exact ⟨rfl, Or.inl rfl⟩
  · split at hm
    · cases hm
      exact ⟨rfl, Or.inr rfl⟩
    · simp at hm

theorem mem_essay_shape (t : List Char) (ps : List (List Char)) (q : QuestionResult)
    (hq : q ∈ extract_essay t ps) :
    q.type = "essay" ∧ q.answer = "" := by
  obtain ⟨m, _, rfl⟩ := List.mem_map.mp hq
  exact ⟨rfl, rfl⟩

theorem mem_flushFill_type (qs : List QuestionResult) (cc : List (List Char))
    (q : QuestionResult) (hqs : ∀ r ∈ qs, r.type = "fill-blank")
    (hq : q ∈ flushFill qs cc) : q.type = "fill-blank" := by
  unfold flushFill at hq
  split at hq
  · split at hq
    · exact hqs q hq
    · rcases List.mem_append.mp hq with h | h
      · exact hqs q h
      · have := List.mem_singleton.mp h
        subst this
        rfl
  · exact hqs q hq

theorem mem_scanFold_type :
    ∀ (ps : List (List Char)) (qs : List QuestionResult) (cq : Option (List Char))
      (cc : List (List Char)) (q : QuestionResult),
      (∀ r ∈ qs, r.type = "fill-blank") → q ∈ scanFold qs cq cc ps →
        q.type = "fill-blank" := by
  intro ps
  induction ps with
  | nil =>
    intro qs cq cc q hqs hq
    simp only [scanFold] at hq
    split at hq
    · exact mem_flushFill_type qs cc q hqs hq
    · exact hqs q hq
  | cons p rest ih =>
    intro qs cq cc q hqs hq
    simp only [scanFold] at hq
    split_ifs at hq <;>
      first
        | exact ih _ _ _ q hqs hq
        | exact ih _ _ _ q (fun r hr => mem_flushFill_type qs cc r hqs hr) hq

theorem mem_fill_type (t : List Char) (ps : List (List Char)) (q : QuestionResult)
    (hq : q ∈ extract_fill_blank t ps) : q.type = "fill-blank" := by
  apply mem_scanFold_type ps (explicitFill t) none [] q _ hq
  intro r hr
  obtain ⟨m, _, rfl⟩ := List.mem_map.mp hr
  rfl

/-- C1.  Every record produced by the orchestrator `_extract_questions`
satisfies the type/field consistency invariant: a single- or multiple-choice
record carries exactly 4 options, a judge record's answer is literally
`"true"` or `"false"`, and an essay record's answer is the empty string. -/
theorem extract_questions_type_field_invariant (t : List Char) (ps : List (List Char))
    (q : QuestionResult) (hq : q ∈ extract_questions t ps) :
    ((q.type = "single-choice" ∨ q.type = "multiple-choice") →
        ∃ os, q.options = some os ∧ os.length = 4) ∧
      (q.type = "judge" → (q.answer = "true" ∨ q.answer = "false")) ∧
      (q.type = "essay" → q.answer = "") := by
  simp only [extract_questions, List.mem_append, or_assoc] at hq
  rcases hq with h | h | h | h | h
  · obtain ⟨hty, os, hos, hlen⟩ := mem_single_choice_shape t ps q h
    refine ⟨fun _ => ⟨os, hos, hlen⟩, fun hj => ?_, fun he => ?_⟩
    · rw [hty] at hj
      exact absurd hj (by decide)
    · rw [hty] at he
      exact absurd he (by decide)
  · obtain ⟨hty, os, hos, hlen⟩ := mem_multiple_choice_shape t ps q h
    refine ⟨fun _ => ⟨os, hos, hlen⟩, fun hj => ?_, fun he => ?_⟩
    · rw [hty] at hj
      exact absurd hj (by decide)
    · rw [hty] at he
      exact absurd he (by decide)
  · have hty := mem_fill_type t ps q h
    refine ⟨fun hor => ?_, fun hj => ?_, fun he => ?_⟩
    · rw [hty] at hor
      rcases hor with hor | hor <;> exact absurd hor (by decide)
    · rw [hty] at hj
      exact absurd hj (by decide)
    · rw [hty] at he
      exact absurd he (by decide)
  · obtain ⟨hty, hans⟩ := mem_judge_shape t ps q h
    refine ⟨fun hor => ?_, fun _ => hans, fun he => ?_⟩
    · rw [hty] at hor
      rcases hor with hor | hor <;> exact absurd hor (by decide)
    · rw [hty] at he
      exact absurd he (by decide)
  · obtain ⟨hty, hans⟩ := mem_essay_shape t ps q h
    refine ⟨fun hor => ?_, fun hj => ?_, fun _ => hans⟩
    · rw [hty] at hor
      rcases hor with hor | hor <;> exact absurd hor (by decide)
    · rw [hty] at hj
      exact absurd hj (by decide)

/-- End-to-end scenario E text `9.The sky is blue. 答案：对` (a judge span). -/
def judgeText : List Char := "9.The sky is blue. 答案：对".data

/-- The judge record extracted from `judgeText`. -/
def judgeRec : QuestionResult :=
  { type := "judge", content := "9.The sky is blue.", answer := "true" }

/-- Witness for C1: the invariant instantiated at a concrete extracted
record. -/
theorem extract_questions_type_field_invariant_witness :
    judgeRec ∈ extract_questions judgeText [judgeText] ∧
      (((judgeRec.type = "single-choice" ∨ judgeRec.type = "multiple-choice") →
          ∃ os, judgeRec.options = some os ∧ os.length = 4) ∧
        (judgeRec.type = "judge" → (judgeRec.answer = "true" ∨ judgeRec.answer = "false")) ∧
        (judgeRec.type = "essay" → judgeRec.answer = "")) :=
  ⟨by decide, extract_questions_type_field_invariant judgeText [judgeText] judgeRec (by decide)⟩

/-! ### C2: judge answer tokens are captured one character at a time -/

/-- Judge input whose answer token is the two-character word `正确`. -/
def zhengqueText : List Char := "1.X 答案：正确".data

/-- Judge input whose answer token is the two-character word `错误`. -/
def cuowuText : List Char := "1.X 答案：错误".data

/-- C2 (evaluation of the code at the failing input).  The judge class
`[对错正确错误√×]` captures a single character, so for `答案：正确` the
captured token is `正`, which is in neither normalization list: the span
yields zero judge records.  For `答案：错误` the captured token is `错`,
which normalizes to `"false"` (the claim expects this record, and it is
emitted — but only because the first character of `错误` happens to be a
listed token). -/
theorem judge_token_captured_single_char :
    extract_judge zhengqueText [zhengqueText] = [] ∧
      extract_judge cuowuText [cuowuText] =
        [{ type := "judge", content := "1.X", answer := "false" }] :=
  ⟨by decide, by decide⟩

/-! ### C3: scenario B also produces a single-choice record -/

/-- Scenario B text `3.Which are primes? A.2 B.4 C.5 D.9 答案：AC`. -/
def primesText : List Char := "3.Which are primes? A.2 B.4 C.5 D.9 答案：AC".data

/-- The multiple-choice record extracted from `primesText`. -/
def primesMC : QuestionResult :=
  { type := "multiple-choice", content := "3.Which are primes?",
    options := some ["2", "4", "5", "9"], answer := "AC" }

/-- The single-choice record extracted from `primesText`: the single-choice
pattern's answer field `([ABCD])` matches the first letter of `AC`. -/
def primesSC : QuestionResult :=
  { type := "single-choice", content := "3.Which are primes?",
    options := some ["2", "4", "5", "9"], answer := "A" }

/-- Counterexample to C3: on scenario B the orchestrator emits a
single-choice record (answer `"A"`), not zero single-choice records. -/
theorem scenarioB_single_choice_emitted :
    (extract_questions primesText [primesText]).filter
      (fun q => q.type == "single-choice") ≠ [] := by decide

/-- C3 amended: scenario B yields exactly one multiple-choice record with
answer `"AC"` and additionally exactly one single-choice record with answer
`"A"` for the same span — the two choice grammars are independent and not
mutually exclusive. -/
theorem scenarioB_choice_records :
    (extract_questions primesText [primesText]).filter
        (fun q => q.type == "multiple-choice") = [primesMC] ∧
      (extract_questions primesText [primesText]).filter
        (fun q => q.type == "single-choice") = [primesSC] :=
  ⟨by decide, by decide⟩

/-! ### C4: scenario C produces a second, scanner-made fill-blank record -/

/-- Scenario C text `5.The capital of France is (___) 答案：Paris`. -/
def capitalText : List Char := "5.The capital of France is (___) 答案：Paris".data

/-- Counterexample to C4: scenario C does not yield exactly one fill-blank
record. -/
theorem scenarioC_not_one_fill_record :
    ((extract_questions capitalText [capitalText]).filter
      (fun q => q.type == "fill-blank")).length ≠ 1 := by decide

/-- C4 amended: scenario C yields exactly two fill-blank records: the
explicit-answer grammar record (answer `"Paris"`), and a second no-answer
record from the paragraph scanner.  The scanner's containment check only
suppresses a candidate whose content equals or is contained in an earlier
record's content; here the candidate (the whole paragraph, including the
`答案：Paris` tail) strictly contains the grammar record's content, so it is
appended. -/
theorem scenarioC_two_fill_records :
    (extract_questions capitalText [capitalText]).filter
        (fun q => q.type == "fill-blank") =
      [{ type := "fill-blank", content := "5.The capital of France is (___)",
         answer := "Paris" },
       { type := "fill-blank", content := "5.The capital of France is (___) 答案：Paris",
         answer := "" }] := by decide

/-! ### C5: containment dedup across the two fill-blank passes -/

/-- First paragraph of the containment-dedup scenario. -/
def dedupP1 : List Char := "1.The answer is (___)".data

/-- Second paragraph (the explicit answer line). -/
def dedupP2 : List Char := "答案：42".data

/-- The newline join of the two paragraphs. -/
def dedupText : List Char := dedupP1 ++ '\n' :: dedupP2

/-- C5.  The explicit-answer grammar emits one record (answer `"42"`), and
the paragraph scanner emits no additional empty-answer duplicate: its
candidate content equals the grammar record's content, so the containment
check suppresses it. -/
theorem fill_containment_dedup :
    explicitFill dedupText =
        [{ type := "fill-blank", content := "1.The answer is (___)", answer := "42" }] ∧
      extract_fill_blank dedupText [dedupP1, dedupP2] =
        [{ type := "fill-blank", content := "1.The answer is (___)", answer := "42" }] :=
  ⟨by decide, by decide⟩

/-! ### C6: scenario D, scanner-only fill-blank record -/

/-- First paragraph of scenario D. -/
def planetP1 : List Char := "7.(___) is the largest planet.".data

/-- Second paragraph of scenario D (leading number and answer keyword,
no blank marker). -/
def planetP2 : List Char := "8.答案：discussion".data

/-- The newline join of the two scenario D paragraphs. -/
def planetText : List Char := planetP1 ++ '\n' :: planetP2

/-- C6.  The explicit-answer grammar matches nothing, and the paragraph
scanner emits exactly one fill-blank record, for the first paragraph, with
empty answer; the second paragraph flushes the first question and itself
yields no record (it contains no blank marker). -/
theorem scenarioD_one_scanner_record :
    explicitFill planetText = [] ∧
      extract_fill_blank planetText [planetP1, planetP2] =
        [{ type := "fill-blank", content := "7.(___) is the largest planet.",
           answer := "" }] :=
  ⟨by decide, by decide⟩

/-! ### C7: the multiple-choice post-match filter -/

/-- Text on which the multiple-choice pattern finds one span (answer `"B"`,
length 1, hence filtered) while the single-choice scan cuts the same text
into two different spans. -/
def overlapText : List Char :=
  "1.Q A x B y C z D w 答案：A 2.R A.a B.b C.c D.d 答案：B".data

/-- Counterexample to C7: there is a text span matched by the multiple-choice
pattern with captured answer of length 1 for which the single-choice scan
yields zero matches with that span (its records cover two different spans),
so the single-choice grammar does not emit exactly one record for that
span. -/
theorem mult_filtered_span_without_single_record :
    ((findAll multPat overlapText).any fun m =>
        ((pyStrip (capGroup overlapText m.2.2 6)).length == 1) &&
          (((findAll singlePat overlapText).filter fun m2 =>
              m2.1 == m.1 && m2.2.1 == m.2.1).length == 0)) = true := by decide

/-- C7 amended: the post-match filter guarantees that every record emitted by
the multiple-choice grammar has an answer of length at least 2 — a span whose
captured answer has length 1 yields no multiple-choice record.  The
single-choice grammar, scanning independently, need not emit a record for
exactly that span. -/
theorem multiple_choice_answer_min_length (t : List Char) (ps : List (List Char))
    (q : QuestionResult) (hq : q ∈ extract_multiple_choice t ps) :
    2 ≤ q.answer.length := by
  obtain ⟨m, _, hm⟩ := List.mem_filterMap.mp hq
  by_cases h : (pyStrip (capGroup t m.2.2 6)).length ≤ 1
  · rw [if_pos h] at hm
    simp at hm
  · rw [if_neg h] at hm
    cases hm
    show 2 ≤ (pyStrip (capGroup t m.2.2 6)).length
    omega

/-- Witness for the amended C7 theorem at scenario B's multiple-choice
record. -/
theorem multiple_choice_answer_min_length_witness :
    primesMC ∈ extract_multiple_choice primesText [primesText] ∧
      2 ≤ primesMC.answer.length :=
  ⟨by decide, multiple_choice_answer_min_length primesText [primesText] primesMC (by decide)⟩

/-! ### C8: empty or whitespace-only text with no paragraphs -/

/-- C8.  For whitespace-only (in particular empty) full text and an empty
paragraph list, the orchestrator returns the empty list.  The embedding is a
total function, so no failure is possible: no pattern can match (every
pattern requires a digit or a `___` literal), and the scanner of an empty
paragraph list flushes nothing. -/
theorem extract_questions_blank_empty (t : List Char) (h : t.all isSpaceB = true) :
    extract_questions t [] = [] := by
  have hc : ∀ c ∈ t, isSpaceB c = true := by
    intro c hm
    exact List.all_eq_true.mp h c hm
  have hd : ∀ c ∈ t, isDigitB c = false := fun c hm => isSpaceB_not_digit c (hc c hm)
  have h1 := findAll_singlePat_blank t hd
  have h2 := findAll_altSinglePat_blank t hd
  have h3 := findAll_multPat_blank t hd
  have h4 := findAll_fillPat_blank t hc hd
  have h5 := findAll_judgePat_blank t hd
  have h6 := findAll_essayPat_blank t hd
  simp [extract_questions, extract_single_choice, extract_multiple_choice,
    extract_fill_blank, explicitFill, extract_judge, extract_essay, scanFold,
    h1, h2, h3, h4, h5, h6]

/-- Witness for C8 at the whitespace-only text `" "`. -/
theorem extract_questions_blank_empty_witness :
    (" ".data.all isSpaceB = true) ∧ extract_questions " ".data [] = [] :=
  ⟨by decide, extract_questions_blank_empty " ".data (by decide)⟩

/-! ### C9: fixed concatenation order of the independent passes -/

/-- C9.  The orchestrator output is exactly the concatenation, in this fixed
order, of the five passes, each an independent function of the same
`(full_text, paragraphs)` inputs; and within the fill-blank pass the
explicit-answer grammar records come first, followed by whatever records the
paragraph scanner appends in flush order. -/
theorem extract_questions_fixed_concat (t : List Char) (ps : List (List Char)) :
    (extract_questions t ps =
        extract_single_choice t ps ++ extract_multiple_choice t ps ++
          extract_fill_blank t ps ++ extract_judge t ps ++ extract_essay t ps) ∧
      ∃ scanned, extract_fill_blank t ps = explicitFill t ++ scanned :=
  ⟨rfl, scanFold_append ps (explicitFill t) none []⟩

/-! ### C10: totality on raw inputs violating the paragraph contract -/

/-- C10.  `_extract_questions` is a total function of its two inputs (the
embedding is a Lean function, hence terminating and exception-free on every
input), and paragraph lists violating the §6 trimmed-non-empty contract are
tolerated rather than rejected: the scanner re-strips every paragraph and
skips empty ones, so the output on any raw paragraph list equals the output
on its cleaned-up form (each paragraph stripped, empties dropped).  The text
argument is unconstrained and may disagree with the paragraphs. -/
theorem extract_questions_total_tolerant (t : List Char) (ps : List (List Char)) :
    extract_questions t ps = extract_questions t (cleanParas ps) := by
  unfold extract_questions extract_single_choice extract_multiple_choice
    extract_fill_blank extract_judge extract_essay
  rw [scanFold_cleanParas]
